import Mathlib

/-!
Verification of the calendar MCP server (event store, date validation,
OAuth manager, calendar API adapter, ICS generator, command interpreter).

The Python source is shallowly embedded: pure functions become Lean
functions, the in-memory `events` list is passed explicitly, filesystem
and network effects are parameters of an environment record, and Python
exceptions become `Except` values.
-/

/-! ## Date parsing: model of `datetime.strptime(date, "%Y-%m-%d")`

CPython's `_strptime` compiles `"%Y-%m-%d"` to the regex
`(?P<Y>\d\d\d\d)-(?P<m>1[0-2]|0[1-9]|[1-9])-(?P<d>3[01]|[12]\d|0[1-9]|[1-9])`,
matches it at the start of the input (raising `ValueError` on failure or on
unconverted trailing data), and then builds a `datetime`, which raises
`ValueError` for out-of-range field values (year 0, day past month end).
-/

def digitVal (c : Char) : Nat := c.toNat - 48

/-- Matches `\d\d\d\d` (the `%Y` directive): exactly four digits. -/
def parse4 : List Char → Option (Nat × List Char)
  | a :: b :: c :: d :: rest =>
    if a.isDigit && b.isDigit && c.isDigit && d.isDigit then
      some (1000 * digitVal a + 100 * digitVal b + 10 * digitVal c + digitVal d, rest)
    else none
  | _ => none

/-- Matches `(1[0-2]|0[1-9]|[1-9])-` (the `%m` directive followed by the
literal dash), alternatives tried left to right with regex backtracking. -/
def parseMonthDash : List Char → Option (Nat × List Char)
  | '1' :: '-' :: rest => some (1, rest)
  | '1' :: c :: '-' :: rest =>
    if c = '0' ∨ c = '1' ∨ c = '2' then some (10 + digitVal c, rest) else none
  | '0' :: c :: '-' :: rest =>
    if '1' ≤ c ∧ c ≤ '9' then some (digitVal c, rest) else none
  | c :: '-' :: rest =>
    if '2' ≤ c ∧ c ≤ '9' then some (digitVal c, rest) else none
  | _ => none

/-- Matches `3[01]|[12]\d|0[1-9]|[1-9]` (the `%d` directive), alternatives
tried left to right; returns the matched day and the unconsumed remainder. -/
def dayAlt : List Char → Option (Nat × List Char)
  | '3' :: c :: rest =>
    if c = '0' ∨ c = '1' then some (30 + digitVal c, rest) else some (3, c :: rest)
  | ['3'] => some (3, [])
  | '1' :: c :: rest =>
    if c.isDigit then some (10 + digitVal c, rest) else some (1, c :: rest)
  | ['1'] => some (1, [])
  | '2' :: c :: rest =>
    if c.isDigit then some (20 + digitVal c, rest) else some (2, c :: rest)
  | ['2'] => some (2, [])
  | '0' :: c :: rest =>
    if '1' ≤ c ∧ c ≤ '9' then some (digitVal c, rest) else none
  | c :: rest =>
    if '4' ≤ c ∧ c ≤ '9' then some (digitVal c, rest) else none
  | [] => none

def isLeap (y : Nat) : Bool := (y % 4 == 0 && y % 100 != 0) || (y % 400 == 0)

def daysInMonth (y m : Nat) : Nat :=
  if m = 2 then (if isLeap y then 29 else 28)
  else if m = 4 ∨ m = 6 ∨ m = 9 ∨ m = 11 then 30
  else 31

/-- `datetime.strptime(s, "%Y-%m-%d")` followed by the `datetime`
constructor's range validation, returning `some (year, month, day)` on
success and `none` where Python raises `ValueError`. -/
def parseDateYMD (s : String) : Option (Nat × Nat × Nat) :=
  match parse4 s.data with
  | some (y, rest) =>
    match rest with
    | '-' :: rest1 =>
      match parseMonthDash rest1 with
      | some (m, rest2) =>
        match dayAlt rest2 with
        | some (d, []) =>
          if 1 ≤ y ∧ d ≤ daysInMonth y m then some (y, m, d) else none
        | _ => none
      | none => none
    | _ => none
  | none => none

/-! ## Event store (`main.py`) -/

structure Event where
  title : String
  date : String
  description : String
deriving Repr, DecidableEq

/-- A single-quote character, used in the user-facing messages. -/
def quoteCh : String := ⟨[Char.ofNat 39]⟩

def invalidDateMsg : String := "Invalid date format. Use YYYY-MM-DD."

def addedMsg (title date : String) : String :=
  "Event " ++ quoteCh ++ title ++ quoteCh ++ " added for " ++ date ++ "."

def deletedMsg (title : String) : String :=
  "Event " ++ quoteCh ++ title ++ quoteCh ++ " deleted."

def notFoundMsg (title : String) : String :=
  "No event found with title " ++ quoteCh ++ title ++ quoteCh ++ "."

/-- Python `str.lower`, restricted to ASCII. -/
def lowerChar (c : Char) : Char :=
  if 'A' ≤ c ∧ c ≤ 'Z' then Char.ofNat (c.toNat + 32) else c

def lowerStr (s : String) : String := ⟨s.data.map lowerChar⟩

/-- `add_event(title, date, description)` from `main.py`: validates the
date with `strptime`, appends on success, returns the status message and
the updated store. -/
def add_event (title date description : String) (events : List Event) :
    String × List Event :=
  match parseDateYMD date with
  | some _ => (addedMsg title date, events ++ [⟨title, date, description⟩])
  | none => (invalidDateMsg, events)

/-- Python string `<`: lexicographic comparison of code points. -/
def lexLt : List Char → List Char → Bool
  | _, [] => false
  | [], _ :: _ => true
  | a :: as, b :: bs => if a < b then true else if b < a then false else lexLt as bs

def strLtPy (a b : String) : Bool := lexLt a.data b.data

def strLePy (a b : String) : Bool := !(strLtPy b a)

/-- Stable insertion of an event into a date-sorted list: the new event
goes after every already-present event whose date is not greater. -/
def insertEvent (e : Event) : List Event → List Event
  | [] => [e]
  | x :: xs => if strLtPy e.date x.date then e :: x :: xs else x :: insertEvent e xs

/-- `sorted(events, key=lambda x: x["date"])`: the stable ascending sort
by the stored date string. -/
def sortByDate (events : List Event) : List Event :=
  events.foldl (fun acc e => insertEvent e acc) []

/-- One line of `view_events` output. -/
def viewLine (e : Event) : String :=
  "- " ++ e.date ++ ": " ++ e.title ++
    (if e.description ≠ "" then " - " ++ e.description else "") ++ "\n"

/-- `view_events()` from `main.py`. -/
def view_events (events : List Event) : String :=
  if events = [] then "No events scheduled."
  else (sortByDate events).foldl (fun acc e => acc ++ viewLine e) "Calendar Events:\n"

/-- `delete_event(title)` from `main.py`: removes every event whose
lowercased title equals the lowercased argument. -/
def delete_event (title : String) (events : List Event) : String × List Event :=
  let newEvents := events.filter (fun e => lowerStr e.title != lowerStr title)
  if newEvents.length < events.length then (deletedMsg title, newEvents)
  else (notFoundMsg title, newEvents)

/-- One line of `summarize_events` output. -/
def summaryLine (e : Event) : String :=
  "- " ++ e.date ++ ": " ++ e.title ++
    (if e.description ≠ "" then " (" ++ e.description ++ ")" else "") ++ "\n"

/-- `summarize_events()` from `main.py`. -/
def summarize_events (events : List Event) : String :=
  if events = [] then "No events scheduled."
  else (sortByDate events).foldl (fun acc e => acc ++ summaryLine e)
    "Upcoming Events Summary:\n"

/-! ## Canonical (zero-padded) date rendering, for comparing the
lexicographic string order with chronological order -/

/-- Chronological (lexicographic on the numeric fields) order on
`(year, month, day)` triples. -/
def chronLt (a b : Nat × Nat × Nat) : Prop :=
  a.1 < b.1 ∨ (a.1 = b.1 ∧ (a.2.1 < b.2.1 ∨ (a.2.1 = b.2.1 ∧ a.2.2 < b.2.2)))

instance (a b : Nat × Nat × Nat) : Decidable (chronLt a b) :=
  inferInstanceAs (Decidable (_ ∨ _))

def digitChar (n : Nat) : Char := Char.ofNat (48 + n)

/-- The decimal digits of `n`, zero-padded on the left to width `k`
(most significant digit first). -/
def padNum : Nat → Nat → List Char
  | 0, _ => []
  | k + 1, n => digitChar (n / 10 ^ k) :: padNum k (n % 10 ^ k)

/-- The canonical zero-padded `YYYY-MM-DD` rendering of a date triple. -/
def renderDate (y m d : Nat) : String :=
  ⟨padNum 4 y ++ '-' :: padNum 2 m ++ '-' :: padNum 2 d⟩

/-! ## ICS generator (`ics_generator.py`)

`generate_ics` parses `f"{date} {start_time}"` and `f"{date} {end_time}"`
with `strptime("%Y-%m-%d %H:%M")`; since the date and the time are joined
by a space, this is modelled compositionally as the date parse followed by
a `"%H:%M"` parse of the time component. The `%H` directive is the regex
`2[0-3]|[0-1]\d|\d` and `%M` is `[0-5]\d|\d`.
-/

/-- Matches `(2[0-3]|[0-1]\d|\d):` (the `%H` directive followed by the
literal colon), alternatives tried left to right with backtracking. -/
def hourColon : List Char → Option (Nat × List Char)
  | '2' :: ':' :: rest => some (2, rest)
  | '2' :: c :: ':' :: rest =>
    if '0' ≤ c ∧ c ≤ '3' then some (20 + digitVal c, rest) else none
  | '0' :: ':' :: rest => some (0, rest)
  | '0' :: c :: ':' :: rest =>
    if c.isDigit then some (digitVal c, rest) else none
  | '1' :: ':' :: rest => some (1, rest)
  | '1' :: c :: ':' :: rest =>
    if c.isDigit then some (10 + digitVal c, rest) else none
  | c :: ':' :: rest =>
    if '3' ≤ c ∧ c ≤ '9' then some (digitVal c, rest) else none
  | _ => none

/-- Matches `[0-5]\d|\d` (the `%M` directive). -/
def minuteAlt : List Char → Option (Nat × List Char)
  | c1 :: c2 :: rest =>
    if ('0' ≤ c1 ∧ c1 ≤ '5') ∧ c2.isDigit then
      some (10 * digitVal c1 + digitVal c2, rest)
    else if c1.isDigit then some (digitVal c1, c2 :: rest)
    else none
  | [c] => if c.isDigit then some (digitVal c, []) else none
  | [] => none

/-- `strptime(s, "%H:%M")`, `some (hour, minute)` on success. -/
def parseTimeHM (s : String) : Option (Nat × Nat) :=
  match hourColon s.data with
  | some (h, rest) =>
    match minuteAlt rest with
    | some (m, []) => some (h, m)
    | _ => none
  | none => none

/-- One character of the filename sanitization:
`c if c.isalnum() or c in (' ', '-', '_') else '_'`. -/
def sanitizeChar (c : Char) : Char :=
  if c.isAlphanum || c = ' ' || c = '-' || c = '_' then c else '_'

/-- `safe_title` in `ICSGenerator.generate_ics`. -/
def safeTitle (title : String) : String := ⟨title.data.map sanitizeChar⟩

/-- The generated filename `f"{date}_{safe_title}.ics"`. -/
def icsFilename (title date : String) : String :=
  date ++ "_" ++ safeTitle title ++ ".ics"

/-- `title.replace(' ', '-')`. -/
def spaceToHyphen (t : String) : String :=
  ⟨t.data.map (fun c => if c = ' ' then '-' else c)⟩

/-- The event UID
`f"{date}-{title.replace(' ', '-')}-{datetime.now().timestamp()}@calendar-mcp"`;
`timestamp` is the rendered `datetime.now().timestamp()`. -/
def icsUid (title date timestamp : String) : String :=
  date ++ "-" ++ spaceToHyphen title ++ "-" ++ timestamp ++ "@calendar-mcp"

def icsOutputDir : String := "/tmp/calendar_events"

structure IcsResult where
  success : Bool
  provider : String
  file_path : Option String
  filename : Option String
  message : Option String
  error : Option String
deriving Repr, DecidableEq

/-- `ICSGenerator.generate_ics`: returns the result dict together with the
file written by `open(filepath, 'wb')` as `(path, uid)` (`none` when the
`except` branch is taken); an existing file at the same path is silently
overwritten by the write. -/
def generate_ics (title date description start_time end_time timezone
    timestamp : String) : IcsResult × Option (String × String) :=
  match parseDateYMD date, parseTimeHM start_time, parseTimeHM end_time with
  | some _, some _, some _ =>
    let filename := icsFilename title date
    let filepath := icsOutputDir ++ "/" ++ filename
    ({ success := true, provider := "ics", file_path := some filepath,
       filename := some filename,
       message := some ("ICS file created: " ++ filepath), error := none },
     some (filepath, icsUid title date timestamp))
  | _, _, _ =>
    ({ success := false, provider := "ics", file_path := none,
       filename := none, message := none,
       error := some ("time data does not match format") }, none)

/-! ## OAuth manager (`oauth_manager.py`) -/

/-- A Python exception value escaping a function. -/
inductive PyExc where
  | fileNotFound (msg : String)
  | valueError (msg : String)
  | exception (msg : String)
deriving Repr, DecidableEq

structure GoogleCreds where
  valid : Bool
  expired : Bool
  hasRefreshToken : Bool
deriving Repr, DecidableEq

instance {e a : Type} [DecidableEq e] [DecidableEq a] : DecidableEq (Except e a) := fun x y =>
  match x, y with
  | .ok u, .ok v =>
    if h : u = v then isTrue (by rw [h]) else isFalse (fun hh => h (Except.ok.inj hh))
  | .error u, .error v =>
    if h : u = v then isTrue (by rw [h]) else isFalse (fun hh => h (Except.error.inj hh))
  | .ok _, .error _ => isFalse (fun hh => Except.noConfusion hh)
  | .error _, .ok _ => isFalse (fun hh => Except.noConfusion hh)

/-- The environment `get_google_credentials` interacts with: the token
file on disk, the outcome of `creds.refresh(Request())`, the presence of
the OAuth client configuration file, and the outcome of
`flow.run_local_server(port=0)`. -/
structure GoogleEnv where
  tokenFile : Option GoogleCreds
  refreshOutcome : Except String GoogleCreds
  credentialsPathExists : Bool
  credentialsPath : String
  flowOutcome : Except String GoogleCreds
deriving Repr, DecidableEq

def googleMissingConfigMsg (path : String) : String :=
  "Google credentials file not found at " ++ path ++
    ". Please download OAuth 2.0 credentials from Google Cloud Console."

/-- `OAuthManager.get_google_credentials`: `.error` exactly where the
Python method lets an exception escape. -/
def get_google_credentials (env : GoogleEnv) : Except PyExc GoogleCreds :=
  let newFlow : Except PyExc GoogleCreds :=
    if env.credentialsPathExists then
      match env.flowOutcome with
      | .ok c => .ok c
      | .error m => .error (.exception m)
    else .error (.fileNotFound (googleMissingConfigMsg env.credentialsPath))
  match env.tokenFile with
  | some c =>
    if c.valid then .ok c
    else if c.expired && c.hasRefreshToken then
      match env.refreshOutcome with
      | .ok c2 => .ok c2
      | .error m => .error (.exception m)
    else newFlow
  | none => newFlow

/-- A Microsoft token dict; `hasAccessToken` is `'access_token' in token`. -/
structure MsToken where
  hasAccessToken : Bool
deriving Repr, DecidableEq

/-- The environment of `get_microsoft_token`: the token file, the
`MICROSOFT_CLIENT_ID` / `MICROSOFT_CLIENT_SECRET` variables, the MSAL
account cache, and the silent/interactive acquisition results. -/
structure MicrosoftEnv where
  tokenFile : Option MsToken
  clientId : Option String
  clientSecret : Option String
  hasAccounts : Bool
  silentOutcome : Option MsToken
  interactiveResult : MsToken
  interactiveErrDesc : String
deriving Repr, DecidableEq

def microsoftMissingConfigMsg : String :=
  "Microsoft credentials not found. Please set MICROSOFT_CLIENT_ID " ++
    "and MICROSOFT_CLIENT_SECRET environment variables."

/-- `OAuthManager.get_microsoft_token`: `.error` exactly where the Python
method raises. -/
def get_microsoft_token (env : MicrosoftEnv) : Except PyExc MsToken :=
  match env.tokenFile with
  | some t => .ok t
  | none =>
    match env.clientId, env.clientSecret with
    | some _, some _ =>
      let silent := if env.hasAccounts then env.silentOutcome else none
      match silent with
      | some t =>
        if t.hasAccessToken then .ok t
        else interactivePart env
      | none => interactivePart env
    | _, _ => .error (.valueError microsoftMissingConfigMsg)
where
  interactivePart (env : MicrosoftEnv) : Except PyExc MsToken :=
    if env.interactiveResult.hasAccessToken then .ok env.interactiveResult
    else .error (.exception
      ("Failed to acquire Microsoft token: " ++ env.interactiveErrDesc))

def authGoogleSuccessMsg : String := "Successfully authenticated with Google Calendar!"

def authGoogleFailMsg : String :=
  "Failed to authenticate with Google Calendar. Please check credentials."

def authMsSuccessMsg : String :=
  "Successfully authenticated with Microsoft Outlook Calendar!"

def authMsFailMsg : String :=
  "Failed to authenticate with Microsoft Calendar. Please check credentials."

/-- The `except` clauses of `oauth_login` in `main.py`. -/
def oauthLoginExcMsg : PyExc → String
  | .fileNotFound m => "Configuration error: " ++ m
  | .valueError m => "Configuration error: " ++ m
  | .exception m => "Authentication failed: " ++ m

/-- `oauth_login('google')` from `main.py`. -/
def oauth_login_google (env : GoogleEnv) : String :=
  match get_google_credentials env with
  | .ok c => if c.valid then authGoogleSuccessMsg else authGoogleFailMsg
  | .error e => oauthLoginExcMsg e

/-- `oauth_login('microsoft')` from `main.py`. -/
def oauth_login_microsoft (env : MicrosoftEnv) : String :=
  match get_microsoft_token env with
  | .ok t => if t.hasAccessToken then authMsSuccessMsg else authMsFailMsg
  | .error e => oauthLoginExcMsg e

/-- The durable token storage consulted by `is_authenticated`; the
freshness fields record whether the stored tokens are still valid, which
the function never reads. -/
structure AuthStorage where
  googleTokenFileExists : Bool
  microsoftTokenFileExists : Bool
  googleTokenFresh : Bool
  microsoftTokenFresh : Bool
deriving Repr, DecidableEq

/-- `OAuthManager.is_authenticated`: a pure presence check on the token
files. -/
def is_authenticated (provider : String) (st : AuthStorage) : Bool :=
  if lowerStr provider = "google" then st.googleTokenFileExists
  else if lowerStr provider = "microsoft" then st.microsoftTokenFileExists
  else false

/-! ## Calendar API adapter (`calendar_api.py`) -/

structure ApiResult where
  success : Bool
  provider : String
  event_id : Option String
  link : Option String
  title : Option String
  date : Option String
  error : Option String
deriving Repr, DecidableEq

structure GoogleEventResp where
  id : Option String
  htmlLink : Option String
deriving Repr, DecidableEq

/-- The remote interactions of `create_google_event`: the
`build('calendar', 'v3', ...)` call and the `events().insert(...).execute()`
call, each of which may raise. -/
structure GoogleApiEnv where
  buildOutcome : Except String Unit
  insertOutcome : Except String GoogleEventResp
deriving Repr, DecidableEq

/-- `CalendarAPI.create_google_event`: the whole body is wrapped in
`try/except Exception`, so every failure becomes a `success: false` dict. -/
def create_google_event (env : GoogleApiEnv)
    (title date description start_time end_time timezone : String) : ApiResult :=
  match env.buildOutcome with
  | .error e =>
    { success := false, provider := "google", event_id := none, link := none,
      title := none, date := none, error := some e }
  | .ok _ =>
    match env.insertOutcome with
    | .error e =>
      { success := false, provider := "google", event_id := none, link := none,
        title := none, date := none, error := some e }
    | .ok r =>
      { success := true, provider := "google", event_id := r.id,
        link := r.htmlLink, title := some title, date := some date,
        error := none }

structure MsEventResp where
  id : Option String
  webLink : Option String
deriving Repr, DecidableEq

/-- An HTTP response from `requests.post`; `jsonOutcome` is the result of
`response.json()`, which may raise on a malformed body. -/
structure MsHttpResponse where
  status : Nat
  text : String
  jsonOutcome : Except String MsEventResp
deriving Repr, DecidableEq

structure MicrosoftApiEnv where
  postOutcome : Except String MsHttpResponse
deriving Repr, DecidableEq

def httpErrorMsg (status : Nat) (text : String) : String :=
  "HTTP " ++ toString status ++ ": " ++ text

/-- `CalendarAPI.create_microsoft_event`: inside `try/except`, a non-2xx
status yields the `HTTP {status}: {text}` failure dict and every raised
exception yields a `success: false` dict. -/
def create_microsoft_event (env : MicrosoftApiEnv)
    (access_token title date description start_time end_time timezone : String) :
    ApiResult :=
  match env.postOutcome with
  | .error e =>
    { success := false, provider := "microsoft", event_id := none, link := none,
      title := none, date := none, error := some e }
  | .ok resp =>
    if resp.status = 200 ∨ resp.status = 201 then
      match resp.jsonOutcome with
      | .error e =>
        { success := false, provider := "microsoft", event_id := none,
          link := none, title := none, date := none, error := some e }
      | .ok r =>
        { success := true, provider := "microsoft", event_id := r.id,
          link := r.webLink, title := some title, date := some date,
          error := none }
    else
      { success := false, provider := "microsoft", event_id := none,
        link := none, title := none, date := none,
        error := some (httpErrorMsg resp.status resp.text) }

/-! ## Command interpreter

Modelled from the spec: the repository ships no `CommandInterpreter`
source under `src/`; section 4.4 of the specification defines it as a
single-pass, stateless, case-insensitive grammar applied in a fixed
priority order: (1) summary keywords, (2) list keywords with embedded
literal or relative date, (3) shorthand `add:`/`create:`/`schedule:` with
pipe-separated fields, (4) natural-language add with an explicit
`YYYY-MM-DD` date, (5) natural-language add with `today`/`tomorrow`,
(6) shorthand `delete:`, (7) natural-language delete, (8) unknown.
-/

inductive Intent where
  | add (title date description : String)
  | listAll
  | listByDate (date : String)
  | delete (title : String)
  | summarize
  | malformedShorthand
  | unresolvedDate
  | unknown
deriving Repr, DecidableEq

def isPrefixChars : List Char → List Char → Bool
  | [], _ => true
  | _ :: _, [] => false
  | a :: as, b :: bs => a == b && isPrefixChars as bs

/-- Substring containment of `needle` in the list. -/
def containsSubChars (needle : List Char) : List Char → Bool
  | [] => needle.isEmpty
  | c :: rest => isPrefixChars needle (c :: rest) || containsSubChars needle rest

def containsSub (hay needle : String) : Bool := containsSubChars needle.data hay.data

/-- Modelled from the spec: the fixed summary keyword set of rule 1. -/
def summaryKeywords : List String :=
  ["summarize", "summary", "what" ++ quoteCh ++ "s coming", "upcoming", "brief"]

/-- Modelled from the spec: rule 1, the message contains a summary keyword. -/
def matchesSummary (msg : String) : Bool :=
  summaryKeywords.any (fun k => containsSub (lowerStr msg) k)

/-- Modelled from the spec: rule 2 trigger, the message contains "list" or
"events" or starts with "what". -/
def matchesList (msg : String) : Bool :=
  containsSub (lowerStr msg) "list" || containsSub (lowerStr msg) "events" ||
    isPrefixChars "what".data (lowerStr msg).data

/-- First occurrence of the literal-date pattern `\d{4}-\d{2}-\d{2}`. -/
def extractDateChars : List Char → Option String
  | a :: b :: c :: d :: '-' :: e :: f :: '-' :: g :: h :: rest =>
    if a.isDigit && b.isDigit && c.isDigit && d.isDigit && e.isDigit && f.isDigit
        && g.isDigit && h.isDigit then
      some ⟨[a, b, c, d, '-', e, f, '-', g, h]⟩
    else extractDateChars (b :: c :: d :: '-' :: e :: f :: '-' :: g :: h :: rest)
  | _ :: rest => extractDateChars rest
  | [] => none

/-- The day after `(y, m, d)` on the proleptic Gregorian calendar. -/
def nextDay (y m d : Nat) : Nat × Nat × Nat :=
  if d < daysInMonth y m then (y, m, d + 1)
  else if m < 12 then (y, m + 1, 1)
  else (y + 1, 1, 1)

/-- Modelled from the spec: the body of rule 2; a resolved literal or
relative date gives `listByDate`, otherwise `listAll`. `today` is the
evaluation-time local date. -/
def listIntent (today : Nat × Nat × Nat) (msg : String) : Intent :=
  match extractDateChars msg.data with
  | some d => .listByDate d
  | none =>
    if containsSub (lowerStr msg) "today" then
      .listByDate (renderDate today.1 today.2.1 today.2.2)
    else if containsSub (lowerStr msg) "tomorrow" then
      let t := nextDay today.1 today.2.1 today.2.2
      .listByDate (renderDate t.1 t.2.1 t.2.2)
    else .listAll

/-- Split on the pipe character, Python `str.split('|')`. -/
def splitPipe : List Char → List (List Char)
  | [] => [[]]
  | c :: rest =>
    let r := splitPipe rest
    if c = '|' then [] :: r
    else
      match r with
      | [] => [[c]]
      | cur :: rs => (c :: cur) :: rs

/-- Modelled from the spec: rule 3, the payload after the shorthand colon
split on `|` into up to three fields; fewer than two is malformed. -/
def shorthandAdd (payload : String) : Intent :=
  match (splitPipe payload.data).map (fun cs => (⟨cs⟩ : String)) with
  | [] => .malformedShorthand
  | [_] => .malformedShorthand
  | [t, d] => .add t d ""
  | t :: d :: ds :: _ => .add t d ds

/-- The payload after a rule-3 shorthand prefix, when one is present. -/
def shorthandPayload (msg : String) : Option String :=
  if isPrefixChars "add:".data (lowerStr msg).data then some ⟨msg.data.drop 4⟩
  else if isPrefixChars "create:".data (lowerStr msg).data then some ⟨msg.data.drop 7⟩
  else if isPrefixChars "schedule:".data (lowerStr msg).data then some ⟨msg.data.drop 9⟩
  else none

def splitSpace : List Char → List (List Char)
  | [] => [[]]
  | c :: rest =>
    let r := splitSpace rest
    if c = ' ' then [] :: r
    else
      match r with
      | [] => [[c]]
      | cur :: rs => (c :: cur) :: rs

/-- The whitespace-separated words of a message. -/
def wordsOf (s : String) : List String :=
  ((splitSpace s.data).filter (fun w => !w.isEmpty)).map (fun cs => (⟨cs⟩ : String))

def joinWords : List String → String
  | [] => ""
  | [w] => w
  | w :: ws => w ++ " " ++ joinWords ws

/-- A literal `YYYY-MM-DD` token. -/
def isDateToken (s : String) : Bool :=
  match s.data with
  | [a, b, c, d, '-', e, f, '-', g, h] =>
    a.isDigit && b.isDigit && c.isDigit && d.isDigit && e.isDigit && f.isDigit
      && g.isDigit && h.isDigit
  | _ => false

/-- Modelled from the spec: rule 4, `(add|create|schedule) <title> (on|for)
<YYYY-MM-DD> [ (about|desc:|description:) <free text> ]`, applied to the
words after the verb; `none` when the pattern does not match. -/
def nlAddExplicit (ws : List String) : Option Intent :=
  match ws.findIdx? (fun w => lowerStr w == "on" || lowerStr w == "for") with
  | some i =>
    match ws.get? (i + 1) with
    | some dw =>
      if isDateToken dw then
        let title := joinWords (ws.take i)
        match ws.drop (i + 2) with
        | [] => some (.add title dw "")
        | marker :: descWords =>
          if lowerStr marker = "about" ∨ lowerStr marker = "desc:" ∨
              lowerStr marker = "description:" then
            some (.add title dw (joinWords descWords))
          else none
      else none
    | none => none
  | none => none

/-- Modelled from the spec: rule 5, `(add|create|schedule) <title>
(today|tomorrow)`, resolving the relative token against `today`;
`UnresolvedDate` when the final token is neither. -/
def nlAddRelative (today : Nat × Nat × Nat) (ws : List String) : Intent :=
  match ws.getLast? with
  | some w =>
    if lowerStr w = "today" then
      .add (joinWords ws.dropLast) (renderDate today.1 today.2.1 today.2.2) ""
    else if lowerStr w = "tomorrow" then
      let t := nextDay today.1 today.2.1 today.2.2
      .add (joinWords ws.dropLast) (renderDate t.1 t.2.1 t.2.2) ""
    else .unresolvedDate
  | none => .unresolvedDate

/-- Modelled from the spec: rule 6, the `delete:<title>` shorthand. -/
def deleteShorthandPayload (msg : String) : Option String :=
  if isPrefixChars "delete:".data (lowerStr msg).data then some ⟨msg.data.drop 7⟩
  else none

/-- Modelled from the spec: rule 7, dropping the optional `the` and
`event` articles before the title. -/
def stripArticles (ws : List String) : List String :=
  let ws1 :=
    match ws with
    | w :: rest => if lowerStr w = "the" then rest else ws
    | [] => ws
  match ws1 with
  | w :: rest => if lowerStr w = "event" then rest else ws1
  | [] => ws1

/-- Modelled from the spec: the full fixed-priority command interpreter;
rules are tried in order 1-8 and the first matching rule decides the
intent. -/
def interpret (today : Nat × Nat × Nat) (msg : String) : Intent :=
  if matchesSummary msg then .summarize
  else if matchesList msg then listIntent today msg
  else
    match shorthandPayload msg with
    | some payload => shorthandAdd payload
    | none =>
      match wordsOf msg with
      | [] => .unknown
      | verb :: rest =>
        if lowerStr verb = "add" ∨ lowerStr verb = "create" ∨
            lowerStr verb = "schedule" then
          match nlAddExplicit rest with
          | some intent => intent
          | none => nlAddRelative today rest
        else
          match deleteShorthandPayload msg with
          | some t => .delete t
          | none =>
            if lowerStr verb = "delete" ∨ lowerStr verb = "remove" ∨
                lowerStr verb = "cancel" then
              .delete (joinWords (stripArticles rest))
            else .unknown

/-- `a ≤ b` on events when the date of `b` is not lexicographically below
the date of `a`; the order in which `sorted` leaves the store. -/
def dateLe (a b : Event) : Prop := strLtPy b.date a.date = false

instance (a b : Event) : Decidable (dateLe a b) :=
  inferInstanceAs (Decidable (strLtPy b.date a.date = false))

/-- Concatenation of the rendered lines of a list of events. -/
def concatMap (f : Event → String) : List Event → String
  | [] => ""
  | e :: l => f e ++ concatMap f l

/-! ## Order lemmas for the lexicographic comparison and the stable sort -/

theorem lexLt_irrefl (a : List Char) : lexLt a a = false := by
  induction a with
  | nil => rfl
  | cons x xs ih => simp [lexLt, ih]

theorem lexLt_asymm {a b : List Char} (h : lexLt a b = true) : lexLt b a = false := by
  induction a generalizing b with
  | nil =>
    cases b with
    | nil => simp [lexLt] at h
    | cons y ys => simp [lexLt]
  | cons x xs ih =>
    cases b with
    | nil => simp [lexLt] at h
    | cons y ys =>
      simp only [lexLt] at h ⊢
      by_cases hxy : x < y
      · simp [hxy, lt_asymm hxy]
      · by_cases hyx : y < x
        · simp [hxy, hyx] at h
        · simp only [hxy, hyx, if_false] at h
          simp [hxy, hyx, ih h]

theorem lexLt_trans {a b c : List Char} (h1 : lexLt a b = true)
    (h2 : lexLt b c = true) : lexLt a c = true := by
  induction a generalizing b c with
  | nil =>
    cases c with
    | nil => cases b <;> simp [lexLt] at h1 h2
    | cons z zs => simp [lexLt]
  | cons x xs ih =>
    cases b with
    | nil => simp [lexLt] at h1
    | cons y ys =>
      cases c with
      | nil => simp [lexLt] at h2
      | cons z zs =>
        simp only [lexLt] at h1 h2 ⊢
        by_cases hxy : x < y
        · by_cases hyz : y < z
          · simp [lt_trans hxy hyz]
          · by_cases hzy : z < y
            · simp [hyz, hzy] at h2
            · have : y = z := le_antisymm (not_lt.mp hzy) (not_lt.mp hyz)
              subst this
              simp [hxy]
        · by_cases hyx : y < x
          · simp [hxy, hyx] at h1
          · have hxy' : x = y := le_antisymm (not_lt.mp hyx) (not_lt.mp hxy)
            subst hxy'
            simp only [lt_irrefl, if_false] at h1
            by_cases hyz : x < z
            · simp [hyz]
            · by_cases hzy : z < x
              · simp [hyz, hzy] at h2
              · have : x = z := le_antisymm (not_lt.mp hzy) (not_lt.mp hyz)
                subst this
                simp only [lt_irrefl, if_false] at h2 ⊢
                exact ih h1 h2

theorem mem_insertEvent (e z : Event) (l : List Event) :
    z ∈ insertEvent e l ↔ z = e ∨ z ∈ l := by
  induction l with
  | nil => simp [insertEvent]
  | cons x xs ih =>
    cases hex : strLtPy e.date x.date <;> simp [insertEvent, hex, ih] <;> tauto

theorem insertEvent_perm (e : Event) (l : List Event) :
    (insertEvent e l).Perm (e :: l) := by
  induction l with
  | nil => rfl
  | cons x xs ih =>
    cases hex : strLtPy e.date x.date
    · simp only [insertEvent, hex, Bool.false_eq_true, if_false]
      exact (ih.cons x).trans (List.Perm.swap e x xs)
    · simp [insertEvent, hex]

theorem insertEvent_pairwise (e : Event) {l : List Event}
    (h : l.Pairwise dateLe) : (insertEvent e l).Pairwise dateLe := by
  induction l with
  | nil => simp [insertEvent, dateLe]
  | cons x xs ih =>
    rw [List.pairwise_cons] at h
    obtain ⟨hx, hxs⟩ := h
    cases hex : strLtPy e.date x.date
    · simp only [insertEvent, hex, Bool.false_eq_true, if_false]
      rw [List.pairwise_cons]
      refine ⟨?_, ih hxs⟩
      intro z hz
      rcases (mem_insertEvent e z xs).mp hz with rfl | hzxs
      · exact hex
      · exact hx z hzxs
    · simp only [insertEvent, hex, if_true]
      rw [List.pairwise_cons]
      constructor
      · intro z hz
        rcases List.mem_cons.mp hz with rfl | hzxs
        · exact lexLt_asymm hex
        · have hxz := hx z hzxs
          unfold dateLe strLtPy at *
          cases hze : lexLt z.date.data e.date.data with
          | false => rfl
          | true =>
            rw [lexLt_trans hze hex] at hxz
            exact absurd hxz (by simp)
      · exact List.pairwise_cons.mpr ⟨hx, hxs⟩

theorem insertEvent_filter (e : Event) (d : String) {l : List Event}
    (h : l.Pairwise dateLe) :
    (insertEvent e l).filter (fun z => z.date == d) =
      (if e.date == d then l.filter (fun z => z.date == d) ++ [e]
       else l.filter (fun z => z.date == d)) := by
  induction l with
  | nil => cases hed : (e.date == d) <;> simp [insertEvent, hed]
  | cons x xs ih =>
    rw [List.pairwise_cons] at h
    obtain ⟨hx, hxs⟩ := h
    cases hex : strLtPy e.date x.date
    · simp only [insertEvent, hex, Bool.false_eq_true, if_false]
      rw [List.filter_cons, List.filter_cons]
      cases hxd : (x.date == d) <;> cases hed : (e.date == d) <;>
        simp [hxd, hed, ih hxs]
    · -- e is placed in front of x :: xs; every event there has a date
      -- strictly above e.date, so none of them can have date d = e.date
      simp only [insertEvent, hex, if_true]
      cases hed : (e.date == d)
      · simp [List.filter_cons, hed]
      · have hde : e.date = d := by simpa using hed
        have hnil : (x :: xs).filter (fun z => z.date == d) = [] := by
          rw [List.filter_eq_nil_iff]
          intro z hz
          rcases List.mem_cons.mp hz with rfl | hzxs
          · intro hzd
            have : z.date = e.date := by
              have : z.date = d := by simpa using hzd
              rw [this, hde]
            rw [show e.date = z.date from this.symm] at hex
            unfold strLtPy at hex
            rw [lexLt_irrefl] at hex
            exact absurd hex (by simp)
          · intro hzd
            have hzd' : z.date = e.date := by
              have : z.date = d := by simpa using hzd
              rw [this, hde]
            have hxz := hx z hzxs
            unfold dateLe strLtPy at hxz
            unfold strLtPy at hex
            rw [hzd'] at hxz
            rw [hex] at hxz
            exact absurd hxz (by simp)
        simp [List.filter_cons, hed, hnil]

theorem foldl_insert_perm (es : List Event) : ∀ acc : List Event,
    (es.foldl (fun acc e => insertEvent e acc) acc).Perm (acc ++ es) := by
  induction es with
  | nil => intro acc; simp
  | cons e es ih =>
    intro acc
    simp only [List.foldl_cons]
    refine (ih (insertEvent e acc)).trans ?_
    refine (List.Perm.append_right es (insertEvent_perm e acc)).trans ?_
    simpa using List.perm_middle.symm

theorem foldl_insert_pairwise (es : List Event) : ∀ acc : List Event,
    acc.Pairwise dateLe →
    (es.foldl (fun acc e => insertEvent e acc) acc).Pairwise dateLe := by
  induction es with
  | nil => intro acc h; simpa
  | cons e es ih =>
    intro acc h
    simp only [List.foldl_cons]
    exact ih _ (insertEvent_pairwise e h)

theorem foldl_insert_filter (d : String) (es : List Event) : ∀ acc : List Event,
    acc.Pairwise dateLe →
    (es.foldl (fun acc e => insertEvent e acc) acc).filter (fun z => z.date == d) =
      acc.filter (fun z => z.date == d) ++ es.filter (fun z => z.date == d) := by
  induction es with
  | nil => intro acc h; simp
  | cons e es ih =>
    intro acc h
    simp only [List.foldl_cons]
    rw [ih _ (insertEvent_pairwise e h), insertEvent_filter e d h]
    cases hed : (e.date == d) <;> simp [List.filter_cons, hed]

theorem sortByDate_perm (es : List Event) : (sortByDate es).Perm es := by
  simpa [sortByDate] using foldl_insert_perm es []

theorem sortByDate_pairwise (es : List Event) : (sortByDate es).Pairwise dateLe :=
  foldl_insert_pairwise es [] (by simp)

theorem sortByDate_filter (d : String) (es : List Event) :
    (sortByDate es).filter (fun z => z.date == d) =
      es.filter (fun z => z.date == d) := by
  simpa [sortByDate] using foldl_insert_filter d es [] (by simp)

theorem foldl_append_concatMap (f : Event → String) (l : List Event) :
    ∀ a : String, l.foldl (fun acc e => acc ++ f e) a = a ++ concatMap f l := by
  induction l with
  | nil => intro a; simp [concatMap]
  | cons e l ih =>
    intro a
    simp [List.foldl_cons, concatMap, ih, String.append_assoc]

theorem deletedMsg_ne_notFoundMsg (t : String) : deletedMsg t ≠ notFoundMsg t := by
  intro h
  have h2 := congrArg String.length h
  rw [deletedMsg, notFoundMsg] at h2
  simp only [String.length_append] at h2
  have e1 : ("Event " : String).length = 6 := rfl
  have e2 : (" deleted." : String).length = 9 := rfl
  have e3 : ("No event found with title " : String).length = 26 := rfl
  have e4 : ("." : String).length = 1 := rfl
  have e5 : quoteCh.length = 1 := rfl
  simp only [e1, e2, e3, e4, e5] at h2
  omega

theorem delete_event_snd (title : String) (es : List Event) :
    (delete_event title es).2 =
      es.filter (fun e => lowerStr e.title != lowerStr title) := by
  by_cases hc :
      (es.filter (fun e => lowerStr e.title != lowerStr title)).length < es.length <;>
    simp [delete_event, hc]

theorem delete_event_fst (title : String) (es : List Event) :
    (delete_event title es).1 =
      (if (es.filter (fun e => lowerStr e.title != lowerStr title)).length < es.length
       then deletedMsg title else notFoundMsg title) := by
  by_cases hc :
      (es.filter (fun e => lowerStr e.title != lowerStr title)).length < es.length <;>
    simp [delete_event, hc]

theorem filter_length_lt_iff_exists_match (title : String) (es : List Event) :
    (es.filter (fun e => lowerStr e.title != lowerStr title)).length < es.length ↔
      ∃ e ∈ es, lowerStr e.title = lowerStr title := by
  rw [List.length_filter_lt_length_iff_exists]
  simp

/-- C1: for every title, description and date string, `add_event` rejects a
date that `strptime("%Y-%m-%d")` does not accept (including the
calendar-impossible month 13 and day 45) with the invalid-date message and
an unchanged store, and for every date that does parse it appends exactly
one event and returns the confirmation message embedding title and date. -/
theorem add_event_validates_date (title date description : String)
    (events : List Event) :
    (parseDateYMD date = none →
      add_event title date description events = (invalidDateMsg, events)) ∧
    ((parseDateYMD date).isSome →
      add_event title date description events =
        (addedMsg title date, events ++ [⟨title, date, description⟩])) ∧
    parseDateYMD "2026-13-01" = none ∧
    parseDateYMD "2026-01-45" = none := by
  refine ⟨?_, ?_, by decide, by decide⟩
  · intro h
    simp [add_event, h]
  · intro h
    match hp : parseDateYMD date with
    | some v => simp [add_event, hp]
    | none => rw [hp] at h; simp at h

theorem add_event_validates_date_witness :
    add_event "Demo" "2026-01-01" "Test event" [] =
      (addedMsg "Demo" "2026-01-01", [⟨"Demo", "2026-01-01", "Test event"⟩]) ∧
    add_event "Demo" "2026-45-99" "Test event" [] = (invalidDateMsg, []) :=
  ⟨(add_event_validates_date "Demo" "2026-01-01" "Test event" []).2.1 (by decide),
   (add_event_validates_date "Demo" "2026-45-99" "Test event" []).1 (by decide)⟩

/-- C2: on the empty store both `view_events` and `summarize_events` return
"No events scheduled."; on a non-empty store both render `sortByDate es`,
which is a permutation of the store, ascending in date, with insertion
order preserved among events of equal date, each line formatted by
`viewLine` (suffix `" - DESCRIPTION"` exactly when the description is
non-empty) respectively `summaryLine` (suffix `" (DESCRIPTION)"`). -/
theorem view_and_summarize_render_sorted (es : List Event) (d : String)
    (h : es ≠ []) :
    view_events [] = "No events scheduled." ∧
    summarize_events [] = "No events scheduled." ∧
    (sortByDate es).Perm es ∧
    (sortByDate es).Pairwise dateLe ∧
    (sortByDate es).filter (fun z => z.date == d) =
      es.filter (fun z => z.date == d) ∧
    view_events es = "Calendar Events:\n" ++ concatMap viewLine (sortByDate es) ∧
    summarize_events es =
      "Upcoming Events Summary:\n" ++ concatMap summaryLine (sortByDate es) := by
  refine ⟨rfl, rfl, sortByDate_perm es, sortByDate_pairwise es,
    sortByDate_filter d es, ?_, ?_⟩
  · simp [view_events, h, foldl_append_concatMap]
  · simp [summarize_events, h, foldl_append_concatMap]

theorem view_and_summarize_render_sorted_witness :
    view_events
        [⟨"C", "2026-03-01", ""⟩, ⟨"A", "2026-01-01", ""⟩, ⟨"B", "2026-02-01", ""⟩] =
      "Calendar Events:\n" ++ concatMap viewLine (sortByDate
        [⟨"C", "2026-03-01", ""⟩, ⟨"A", "2026-01-01", ""⟩, ⟨"B", "2026-02-01", ""⟩]) :=
  (view_and_summarize_render_sorted
    [⟨"C", "2026-03-01", ""⟩, ⟨"A", "2026-01-01", ""⟩, ⟨"B", "2026-02-01", ""⟩]
    "2026-01-01" (by decide)).2.2.2.2.2.1

/-- C3: `delete_event` removes every event whose title matches
case-insensitively, returns the found message exactly when at least one
event was removed and the not-found message otherwise, and a second call
with the same title on the resulting store returns the not-found message. -/
theorem delete_event_removes_all_matches (title : String) (es : List Event) :
    (delete_event title es).2 =
      es.filter (fun e => lowerStr e.title != lowerStr title) ∧
    ((delete_event title es).1 = deletedMsg title ↔
      ∃ e ∈ es, lowerStr e.title = lowerStr title) ∧
    ((delete_event title es).1 = notFoundMsg title ↔
      ¬∃ e ∈ es, lowerStr e.title = lowerStr title) ∧
    (delete_event title (delete_event title es).2).1 = notFoundMsg title := by
  refine ⟨delete_event_snd title es, ?_, ?_, ?_⟩
  · rw [delete_event_fst]
    by_cases hc :
        (es.filter (fun e => lowerStr e.title != lowerStr title)).length < es.length
    · simp only [hc, if_true, true_iff]
      exact (filter_length_lt_iff_exists_match title es).mp hc
    · simp only [hc, if_false]
      constructor
      · intro hEq
        exact absurd hEq.symm (deletedMsg_ne_notFoundMsg title)
      · intro hEx
        exact absurd ((filter_length_lt_iff_exists_match title es).mpr hEx) hc
  · rw [delete_event_fst]
    by_cases hc :
        (es.filter (fun e => lowerStr e.title != lowerStr title)).length < es.length
    · simp only [hc, if_true]
      constructor
      · intro hEq
        exact absurd hEq (deletedMsg_ne_notFoundMsg title)
      · intro hNEx
        exact absurd ((filter_length_lt_iff_exists_match title es).mp hc) hNEx
    · simp only [hc, if_false, true_iff]
      rw [← filter_length_lt_iff_exists_match title es] at *
      exact hc
  · rw [delete_event_snd]
    simp [delete_event, List.filter_filter]

/-- C10: a successful `add_event` appends the new event at the end, leaving
every previously stored event unchanged and in place, and `delete_event`
keeps every non-matching event, in their original relative order (the
surviving store is a sublist of the original). -/
theorem add_delete_frame (title date description dtitle : String)
    (es : List Event) :
    ((parseDateYMD date).isSome →
      (add_event title date description es).2 = es ++ [⟨title, date, description⟩]) ∧
    ((delete_event dtitle es).2).Sublist es ∧
    (∀ e ∈ es, lowerStr e.title ≠ lowerStr dtitle →
      e ∈ (delete_event dtitle es).2) := by
  refine ⟨?_, ?_, ?_⟩
  · intro h
    match hp : parseDateYMD date with
    | some v => simp [add_event, hp]
    | none => rw [hp] at h; simp at h
  · rw [delete_event_snd]
    exact List.filter_sublist es
  · intro e he hne
    rw [delete_event_snd]
    simp only [List.mem_filter]
    exact ⟨he, by simpa using hne⟩

theorem add_delete_frame_witness :
    (add_event "A" "2026-01-01" "" [⟨"B", "2026-02-02", ""⟩]).2 =
      [⟨"B", "2026-02-02", ""⟩, ⟨"A", "2026-01-01", ""⟩] ∧
    (⟨"B", "2026-02-02", ""⟩ : Event) ∈
      (delete_event "a" [⟨"A", "2026-01-01", ""⟩, ⟨"B", "2026-02-02", ""⟩]).2 :=
  ⟨(add_delete_frame "A" "2026-01-01" "" "x" [⟨"B", "2026-02-02", ""⟩]).1 (by decide),
   (add_delete_frame "A" "2026-01-01" "" "a"
      [⟨"A", "2026-01-01", ""⟩, ⟨"B", "2026-02-02", ""⟩]).2.2
      ⟨"B", "2026-02-02", ""⟩ (by decide) (by decide)⟩

/-! ## Lexicographic order on zero-padded digit strings -/

theorem lexLt_nil_nil : lexLt [] [] = false := rfl

theorem lexLt_cons_cons (x y : Char) (xs ys : List Char) :
    lexLt (x :: xs) (y :: ys) =
      if x < y then true else if y < x then false else lexLt xs ys := rfl

theorem padNum_length (k : Nat) : ∀ n, (padNum k n).length = k := by
  induction k with
  | zero => intro n; rfl
  | succ k ih => intro n; simp [padNum, ih]

theorem digitChar_lt_iff : ∀ a < 10, ∀ b < 10, (digitChar a < digitChar b ↔ a < b) := by
  decide

theorem lt_of_div_lt {P n n' : Nat} (hP : 0 < P) (h : n / P < n' / P) : n < n' := by
  have hn := Nat.div_add_mod n P
  have hn' := Nat.div_add_mod n' P
  have hr : n % P < P := Nat.mod_lt _ hP
  calc n = P * (n / P) + n % P := hn.symm
    _ < P * (n / P) + P := Nat.add_lt_add_left hr _
    _ = P * (n / P + 1) := (Nat.mul_succ P _).symm
    _ ≤ P * (n' / P) := Nat.mul_le_mul_left P h
    _ ≤ n' := Nat.le.intro hn'

theorem div_mod_lt_iff {P : Nat} (hP : 0 < P) (n n' : Nat) :
    n < n' ↔ (n / P < n' / P ∨ (n / P = n' / P ∧ n % P < n' % P)) := by
  constructor
  · intro h
    rcases Nat.lt_trichotomy (n / P) (n' / P) with h1 | h1 | h1
    · exact Or.inl h1
    · right
      refine ⟨h1, ?_⟩
      have hn := Nat.div_add_mod n P
      have hn' := Nat.div_add_mod n' P
      rw [h1] at hn
      generalize hA : P * (n' / P) = A at hn hn'
      omega
    · exact absurd h (Nat.not_lt.mpr (le_of_lt (lt_of_div_lt hP h1)))
  · intro h
    rcases h with h1 | ⟨h1, h2⟩
    · exact lt_of_div_lt hP h1
    · have hn := Nat.div_add_mod n P
      have hn' := Nat.div_add_mod n' P
      rw [h1] at hn
      generalize hA : P * (n' / P) = A at hn hn'
      omega

theorem padNum_lt_iff (k : Nat) : ∀ n n', n < 10 ^ k → n' < 10 ^ k →
    (lexLt (padNum k n) (padNum k n') = true ↔ n < n') := by
  induction k with
  | zero =>
    intro n n' h h'
    have hn : n = 0 := by simpa using Nat.lt_one_iff.mp (by simpa using h)
    have hn' : n' = 0 := by simpa using Nat.lt_one_iff.mp (by simpa using h')
    subst hn; subst hn'
    simp [padNum, lexLt_nil_nil]
  | succ k ih =>
    intro n n' h h'
    have hP : 0 < 10 ^ k := pow_pos (by norm_num) k
    have hq : n / 10 ^ k < 10 := by
      rw [Nat.div_lt_iff_lt_mul hP]
      rw [pow_succ'] at h
      exact h
    have hq' : n' / 10 ^ k < 10 := by
      rw [Nat.div_lt_iff_lt_mul hP]
      rw [pow_succ'] at h'
      exact h'
    have hrm : n % 10 ^ k < 10 ^ k := Nat.mod_lt _ hP
    have hrm' : n' % 10 ^ k < 10 ^ k := Nat.mod_lt _ hP
    simp only [padNum]
    rw [lexLt_cons_cons]
    rw [div_mod_lt_iff hP n n']
    by_cases h1 : digitChar (n / 10 ^ k) < digitChar (n' / 10 ^ k)
    · have hqq := (digitChar_lt_iff _ hq _ hq').mp h1
      simp [h1, hqq]
    · by_cases h2 : digitChar (n' / 10 ^ k) < digitChar (n / 10 ^ k)
      · have hqq := (digitChar_lt_iff _ hq' _ hq).mp h2
        simp only [h1, if_false, h2, if_true]
        constructor
        · intro hfalse; cases hfalse
        · intro hor
          exfalso
          rcases hor with hlt | ⟨heq, _⟩
          · omega
          · omega
      · have n1 : ¬ n / 10 ^ k < n' / 10 ^ k :=
          fun hh => h1 ((digitChar_lt_iff _ hq _ hq').mpr hh)
        have n2 : ¬ n' / 10 ^ k < n / 10 ^ k :=
          fun hh => h2 ((digitChar_lt_iff _ hq' _ hq).mpr hh)
        have hqq : n / 10 ^ k = n' / 10 ^ k := by omega
        simp only [h1, h2, if_false]
        rw [ih _ _ hrm hrm']
        constructor
        · intro hr
          exact Or.inr ⟨hqq, hr⟩
        · rintro (hlt | ⟨_, hr⟩)
          · exact absurd hlt n1
          · exact hr

theorem padNum_eq_iff {k n n' : Nat} (h : n < 10 ^ k) (h' : n' < 10 ^ k) :
    padNum k n = padNum k n' ↔ n = n' := by
  constructor
  · intro he
    rcases Nat.lt_trichotomy n n' with hl | he' | hl
    · have := (padNum_lt_iff k n n' h h').mpr hl
      rw [he, lexLt_irrefl] at this
      cases this
    · exact he'
    · have := (padNum_lt_iff k n' n h' h).mpr hl
      rw [← he, lexLt_irrefl] at this
      cases this
  · intro he
    rw [he]

theorem lexLt_append : ∀ {a b : List Char}, a.length = b.length →
    ∀ (x y : List Char),
    (lexLt (a ++ x) (b ++ y) = true ↔
      (lexLt a b = true ∨ (a = b ∧ lexLt x y = true))) := by
  intro a
  induction a with
  | nil =>
    intro b hb x y
    cases b with
    | nil => simp [lexLt_nil_nil]
    | cons q qs => simp at hb
  | cons p ps ih =>
    intro b hb x y
    cases b with
    | nil => simp at hb
    | cons q qs =>
      simp only [List.length_cons] at hb
      have hb' : ps.length = qs.length := by omega
      simp only [List.cons_append, lexLt_cons_cons]
      by_cases h1 : p < q
      · simp [h1]
      · by_cases h2 : q < p
        · have hne : p ≠ q := ne_of_gt h2
          simp [h1, h2, hne]
        · have hpq : p = q := le_antisymm (not_lt.mp h2) (not_lt.mp h1)
          subst hpq
          simp only [lt_irrefl, if_false]
          rw [ih hb' x y]
          simp

theorem renderDate_lt_iff (y m d y' m' d' : Nat)
    (hy : y < 10000) (hm : m < 100) (hd : d < 100)
    (hy' : y' < 10000) (hm' : m' < 100) (hd' : d' < 100) :
    (strLtPy (renderDate y m d) (renderDate y' m' d') = true ↔
      chronLt (y, m, d) (y', m', d')) := by
  have h4 : (10000 : Nat) = 10 ^ 4 := by norm_num
  have h2 : (100 : Nat) = 10 ^ 2 := by norm_num
  rw [h4] at hy hy'
  rw [h2] at hm hm' hd hd'
  show lexLt (padNum 4 y ++ '-' :: padNum 2 m ++ '-' :: padNum 2 d)
      (padNum 4 y' ++ '-' :: padNum 2 m' ++ '-' :: padNum 2 d') = true ↔ _
  rw [List.append_assoc, List.append_assoc, List.cons_append, List.cons_append]
  rw [lexLt_append (by rw [padNum_length, padNum_length])]
  rw [lexLt_cons_cons]
  simp only [lt_irrefl, if_false]
  rw [lexLt_append (by rw [padNum_length, padNum_length])]
  rw [lexLt_cons_cons]
  simp only [lt_irrefl, if_false]
  rw [padNum_lt_iff 4 y y' hy hy', padNum_lt_iff 2 m m' hm hm',
    padNum_lt_iff 2 d d' hd hd', padNum_eq_iff hy hy', padNum_eq_iff hm hm']
  unfold chronLt
  exact Iff.rfl

/-- C9: `add_event` accepts non-canonical date strings such as
`"2026-1-5"` (flexible field widths) and stores them verbatim; the views
sort by lexicographic comparison of the stored strings, which disagrees
with chronological order once a non-padded date is stored (the concrete
store below lists 2026-05-01 before 2026-1-5) and provably coincides with
chronological order on zero-padded renderings. -/
theorem nonpadded_dates_sort_lexicographically :
    parseDateYMD "2026-1-5" = some (2026, 1, 5) ∧
    (∀ t d dsc es, (parseDateYMD d).isSome →
      (add_event t d dsc es).2 = es ++ [⟨t, d, dsc⟩]) ∧
    view_events [⟨"A", "2026-1-5", ""⟩, ⟨"B", "2026-05-01", ""⟩] =
      "Calendar Events:\n- 2026-05-01: B\n- 2026-1-5: A\n" ∧
    chronLt (2026, 1, 5) (2026, 5, 1) ∧
    strLtPy "2026-05-01" "2026-1-5" = true ∧
    (∀ y m d y' m' d', y < 10000 → m < 100 → d < 100 →
      y' < 10000 → m' < 100 → d' < 100 →
      (strLtPy (renderDate y m d) (renderDate y' m' d') = true ↔
        chronLt (y, m, d) (y', m', d'))) := by
  refine ⟨by decide, ?_, by decide, by decide, by decide, ?_⟩
  · intro t d dsc es h
    match hp : parseDateYMD d with
    | some v => simp [add_event, hp]
    | none => rw [hp] at h; simp at h
  · intro y m d y' m' d' hy hm hd hy' hm' hd'
    exact renderDate_lt_iff y m d y' m' d' hy hm hd hy' hm' hd'

theorem nonpadded_dates_sort_lexicographically_witness :
    (add_event "A" "2026-1-5" "" []).2 = [⟨"A", "2026-1-5", ""⟩] ∧
    (strLtPy (renderDate 2026 1 5) (renderDate 2026 5 1) = true ↔
      chronLt (2026, 1, 5) (2026, 5, 1)) :=
  ⟨by simpa using
      nonpadded_dates_sort_lexicographically.2.1 "A" "2026-1-5" "" [] (by decide),
   nonpadded_dates_sort_lexicographically.2.2.2.2.2 2026 1 5 2026 5 1
     (by decide) (by decide) (by decide) (by decide) (by decide) (by decide)⟩

/-! ## ICS generator claims -/

theorem icsUid_inj_timestamp {title date ts1 ts2 : String}
    (h : icsUid title date ts1 = icsUid title date ts2) : ts1 = ts2 := by
  have hd := congrArg String.data h
  simp only [icsUid, String.data_append, List.append_assoc] at hd
  have h1 := List.append_cancel_left hd
  have h2 := List.append_cancel_left h1
  have h3 := List.append_cancel_left h2
  have h4 := List.append_cancel_left h3
  exact String.ext (List.append_cancel_right h4)

/-- C4 counterexample: two exports with identical title and date write to
the identical path (the timestamp token is embedded only in the UID, not
in the filename), so the second call silently overwrites the first file
instead of producing a distinct one. -/
theorem export_ics_overwrites_counterexample :
    ((generate_ics "Team Sync" "2026-01-15" "" "09:00" "10:00" "UTC" "100.5").2.map
        Prod.fst) =
      ((generate_ics "Team Sync" "2026-01-15" "" "09:00" "10:00" "UTC" "200.5").2.map
        Prod.fst) ∧
    ((generate_ics "Team Sync" "2026-01-15" "" "09:00" "10:00" "UTC" "100.5").2.map
        Prod.fst) =
      some "/tmp/calendar_events/2026-01-15_Team Sync.ics" := by
  constructor <;> rfl

/-- C4 amended: for every title and valid date/time inputs, repeated
exports produce the same filename `date ++ "_" ++ sanitized-title ++
".ics"` (every character that is not alphanumeric, space, hyphen or
underscore replaced by an underscore), so the second export overwrites the
first file; the timestamp-derived uniqueness token is embedded in the
record UID only, which therefore differs between the two exports. -/
theorem export_ics_filename_collision_uid_unique
    (title date description start_time end_time timezone ts1 ts2 : String)
    (hd : (parseDateYMD date).isSome) (hs : (parseTimeHM start_time).isSome)
    (he : (parseTimeHM end_time).isSome) (hts : ts1 ≠ ts2) :
    (generate_ics title date description start_time end_time timezone ts1).1.filename =
      some (icsFilename title date) ∧
    (generate_ics title date description start_time end_time timezone ts1).1.filename =
      (generate_ics title date description start_time end_time timezone ts2).1.filename ∧
    (generate_ics title date description start_time end_time timezone ts1).2 =
      some (icsOutputDir ++ "/" ++ icsFilename title date, icsUid title date ts1) ∧
    (∀ p1 u1 p2 u2,
      (generate_ics title date description start_time end_time timezone ts1).2 =
        some (p1, u1) →
      (generate_ics title date description start_time end_time timezone ts2).2 =
        some (p2, u2) →
      p1 = p2 ∧ u1 ≠ u2) ∧
    icsFilename title date = date ++ "_" ++ safeTitle title ++ ".ics" ∧
    (∀ c : Char, (c.isAlphanum || c = ' ' || c = '-' || c = '_') = false →
      sanitizeChar c = '_') := by
  obtain ⟨pd, hpd⟩ := Option.isSome_iff_exists.mp hd
  obtain ⟨ps, hps⟩ := Option.isSome_iff_exists.mp hs
  obtain ⟨pe, hpe⟩ := Option.isSome_iff_exists.mp he
  refine ⟨?_, ?_, ?_, ?_, rfl, ?_⟩
  · simp [generate_ics, hpd, hps, hpe]
  · simp [generate_ics, hpd, hps, hpe]
  · simp [generate_ics, hpd, hps, hpe]
  · intro p1 u1 p2 u2 h1 h2
    simp only [generate_ics, hpd, hps, hpe] at h1 h2
    obtain ⟨hp1, hu1⟩ := Prod.mk.injEq .. ▸ Option.some.inj h1
    obtain ⟨hp2, hu2⟩ := Prod.mk.injEq .. ▸ Option.some.inj h2
    constructor
    · rw [← hp1, ← hp2]
    · rw [← hu1, ← hu2]
      intro hequ
      exact hts (icsUid_inj_timestamp hequ)
  · intro c hc
    simp [sanitizeChar, hc]

theorem export_ics_filename_collision_uid_unique_witness :
    (generate_ics "Team Sync!" "2026-01-15" "" "09:00" "10:00" "UTC" "100.5").1.filename =
      some (icsFilename "Team Sync!" "2026-01-15") ∧
    icsFilename "Team Sync!" "2026-01-15" = "2026-01-15_Team Sync_.ics" :=
  ⟨(export_ics_filename_collision_uid_unique "Team Sync!" "2026-01-15" "" "09:00"
      "10:00" "UTC" "100.5" "200.5" (by decide) (by decide) (by decide)
      (by decide)).1,
   by decide⟩

/-! ## Command interpreter claim -/

/-- C5: the interpreter applies its grammar rules in a fixed priority
order with first match winning; the input "summarize events on
2026-01-01" matches both the summary keyword set (rule 1) and the list
keyword set with an embedded date (rule 2), and resolves to `summarize`
because rule 1 is checked first. -/
theorem summarize_priority_over_list :
    (∀ today msg, matchesSummary msg = true → interpret today msg = .summarize) ∧
    matchesSummary "summarize events on 2026-01-01" = true ∧
    matchesList "summarize events on 2026-01-01" = true ∧
    extractDateChars "summarize events on 2026-01-01".data = some "2026-01-01" ∧
    listIntent (2026, 1, 1) "summarize events on 2026-01-01" =
      .listByDate "2026-01-01" ∧
    interpret (2026, 1, 1) "summarize events on 2026-01-01" = .summarize := by
  refine ⟨?_, by decide, by decide, by decide, by decide, by decide⟩
  intro today msg h
  simp [interpret, h]

theorem summarize_priority_over_list_witness :
    interpret (2026, 1, 1) "brief me" = .summarize :=
  summarize_priority_over_list.1 (2026, 1, 1) "brief me" (by decide)

/-! ## OAuth manager claims -/

/-- C6 counterexample: with no stored token and no client configuration,
`get_google_credentials` raises `FileNotFoundError` and
`get_microsoft_token` raises `ValueError`; both exceptions leave the
vault uncaught, refuting that no raw exception ever propagates to the
caller. -/
theorem vault_lets_exceptions_escape :
    get_google_credentials
        ⟨none, .error "refresh", false, "credentials.json", .error "flow"⟩ =
      .error (.fileNotFound (googleMissingConfigMsg "credentials.json")) ∧
    get_microsoft_token ⟨none, none, none, false, none, ⟨false⟩, "AADSTS"⟩ =
      .error (.valueError microsoftMissingConfigMsg) := by
  constructor <;> rfl

/-- C6 amended: exceptions from the OAuth exchange are not caught inside
the vault and do propagate to its caller; the `oauth_login` tool catches
every vault exception and converts it to a status message
(FileNotFoundError and ValueError to "Configuration error: …", any other
exception to "Authentication failed: …"). -/
theorem vault_exceptions_converted_by_caller
    (genv : GoogleEnv) (menv : MicrosoftEnv) :
    (∀ e, get_google_credentials genv = .error e →
      oauth_login_google genv = oauthLoginExcMsg e) ∧
    (∀ e, get_microsoft_token menv = .error e →
      oauth_login_microsoft menv = oauthLoginExcMsg e) := by
  constructor
  · intro e h
    simp [oauth_login_google, h]
  · intro e h
    simp [oauth_login_microsoft, h]

theorem vault_exceptions_converted_by_caller_witness :
    oauth_login_google
        ⟨none, .error "refresh", false, "credentials.json", .error "flow"⟩ =
      oauthLoginExcMsg (.fileNotFound (googleMissingConfigMsg "credentials.json")) :=
  (vault_exceptions_converted_by_caller
      ⟨none, .error "refresh", false, "credentials.json", .error "flow"⟩
      ⟨none, none, none, false, none, ⟨false⟩, "AADSTS"⟩).1
    (.fileNotFound (googleMissingConfigMsg "credentials.json")) rfl

/-- C8: `is_authenticated` is a pure presence check on the provider's
durable token file: for google/microsoft (matched case-insensitively) it
returns exactly the file-existence flag, independent of token freshness
(a stale-but-present token reports authenticated), and every other
provider string yields false. -/
theorem is_authenticated_presence_only (p : String) (st st' : AuthStorage) :
    (lowerStr p = "google" → is_authenticated p st = st.googleTokenFileExists) ∧
    (lowerStr p = "microsoft" →
      is_authenticated p st = st.microsoftTokenFileExists) ∧
    (lowerStr p ≠ "google" → lowerStr p ≠ "microsoft" →
      is_authenticated p st = false) ∧
    (st.googleTokenFileExists = st'.googleTokenFileExists →
      st.microsoftTokenFileExists = st'.microsoftTokenFileExists →
      is_authenticated p st = is_authenticated p st') := by
  refine ⟨?_, ?_, ?_, ?_⟩
  · intro h
    simp [is_authenticated, h]
  · intro h
    by_cases hg : lowerStr p = "google"
    · rw [h] at hg
      simp at hg
    · simp [is_authenticated, h, hg]
  · intro h1 h2
    simp [is_authenticated, h1, h2]
  · intro h1 h2
    simp only [is_authenticated, h1, h2]

theorem is_authenticated_presence_only_witness :
    is_authenticated "google" ⟨true, false, false, false⟩ = true :=
  (is_authenticated_presence_only "google" ⟨true, false, false, false⟩
    ⟨true, false, false, false⟩).1 (by decide)

/-! ## Calendar API adapter claim -/

/-- C7: for every failure of the remote call — a raised exception from
`build`/`insert` (google) or `requests.post` (microsoft), a non-2xx HTTP
status, or a malformed response body — the adapter returns a result with
`success := false` and a populated `error` field; the `try/except` wrapper
makes both operations total, so no exception reaches the caller. -/
theorem create_event_failure_result_never_raises
    (genv : GoogleApiEnv) (menv : MicrosoftApiEnv)
    (tok title date description st et tz : String) :
    (∀ e, genv.buildOutcome = .error e →
      (create_google_event genv title date description st et tz).success = false ∧
      (create_google_event genv title date description st et tz).error = some e) ∧
    (∀ u e, genv.buildOutcome = .ok u → genv.insertOutcome = .error e →
      (create_google_event genv title date description st et tz).success = false ∧
      (create_google_event genv title date description st et tz).error = some e) ∧
    ((create_google_event genv title date description st et tz).success = false →
      ((create_google_event genv title date description st et tz).error).isSome) ∧
    (∀ e, menv.postOutcome = .error e →
      (create_microsoft_event menv tok title date description st et tz).success = false ∧
      (create_microsoft_event menv tok title date description st et tz).error = some e) ∧
    (∀ resp, menv.postOutcome = .ok resp →
      ¬(resp.status = 200 ∨ resp.status = 201) →
      (create_microsoft_event menv tok title date description st et tz).success = false ∧
      (create_microsoft_event menv tok title date description st et tz).error =
        some (httpErrorMsg resp.status resp.text)) ∧
    (∀ resp e, menv.postOutcome = .ok resp →
      (resp.status = 200 ∨ resp.status = 201) → resp.jsonOutcome = .error e →
      (create_microsoft_event menv tok title date description st et tz).success = false ∧
      (create_microsoft_event menv tok title date description st et tz).error = some e) ∧
    ((create_microsoft_event menv tok title date description st et tz).success = false →
      ((create_microsoft_event menv tok title date description st et tz).error).isSome) := by
  refine ⟨?_, ?_, ?_, ?_, ?_, ?_, ?_⟩
  · intro e h
    simp [create_google_event, h]
  · intro u e hb hi
    simp [create_google_event, hb, hi]
  · intro hf
    rcases hb : genv.buildOutcome with e | u
    · simp [create_google_event, hb]
    · rcases hi : genv.insertOutcome with e | r
      · simp [create_google_event, hb, hi]
      · simp [create_google_event, hb, hi] at hf
  · intro e h
    simp [create_microsoft_event, h]
  · intro resp hp hst
    simp [create_microsoft_event, hp, hst]
  · intro resp e hp hst hj
    simp [create_microsoft_event, hp, hst, hj]
  · intro hf
    rcases hp : menv.postOutcome with e | resp
    · simp [create_microsoft_event, hp]
    · by_cases hst : resp.status = 200 ∨ resp.status = 201
      · rcases hj : resp.jsonOutcome with e | r
        · simp [create_microsoft_event, hp, hst, hj]
        · simp [create_microsoft_event, hp, hst, hj] at hf
      · simp [create_microsoft_event, hp, hst]

theorem create_event_failure_result_never_raises_witness :
    (create_google_event ⟨.ok (), .error "HttpError 503"⟩ "T" "2026-01-01" ""
        "09:00" "10:00" "UTC").success = false ∧
    (create_microsoft_event ⟨.ok ⟨404, "Not Found", .ok ⟨none, none⟩⟩⟩ "tok" "T"
        "2026-01-01" "" "09:00" "10:00" "UTC").error =
      some (httpErrorMsg 404 "Not Found") :=
  ⟨((create_event_failure_result_never_raises ⟨.ok (), .error "HttpError 503"⟩
      ⟨.ok ⟨404, "Not Found", .ok ⟨none, none⟩⟩⟩ "tok" "T" "2026-01-01" ""
      "09:00" "10:00" "UTC").2.1 () "HttpError 503" rfl rfl).1,
   ((create_event_failure_result_never_raises ⟨.ok (), .error "HttpError 503"⟩
      ⟨.ok ⟨404, "Not Found", .ok ⟨none, none⟩⟩⟩ "tok" "T" "2026-01-01" ""
      "09:00" "10:00" "UTC").2.2.2.2.1 ⟨404, "Not Found", .ok ⟨none, none⟩⟩ rfl
      (by decide)).2⟩
